import Mathlib

/-!
Verification of the share-splitting layer: the code that lays a block's
transactions, evidence and messages out as a flat sequence of namespaced,
fixed-size shares filling a square of a declared power-of-two size.

The functions Split, ExtractShareIndexes, SplitTxs, SplitEvidence and
SplitMessages are translated from pkg/shares/share_splitting.go. The
external collaborators that the splitting code calls but that are not part
of this repository slice (the contiguous share writer, the message share
writer, the alignment resolver, the wrapped-transaction accessor, the
padding constructors and the power-of-two test) are modelled from the
specification contracts; each such definition is marked
"Modelled from the spec" in its doc comment. The model tracks, for each
share, its namespace tag and whether it is a padding share; the byte-level
content of shares is outside the scope of the properties proved here.
-/

set_option maxRecDepth 100000

namespace CelestiaShares

/-- Namespace identifiers for shares. The reserved namespace identifiers are
treated by the specification as opaque ordered constants; they are modelled
as an enumeration: the transaction namespace, the evidence namespace, the
per-message namespaces (one per caller-supplied identifier), and the
reserved tail-padding namespace. -/
inductive NamespaceID where
  | txNs : NamespaceID
  | evdNs : NamespaceID
  | msgNs : Nat → NamespaceID
  | tailNs : NamespaceID
deriving DecidableEq

/-- Whether a share carries real content or is a padding share. -/
inductive ShareKind where
  | content : ShareKind
  | padding : ShareKind
deriving DecidableEq

/-- A share: a fixed-size binary unit tagged with a namespace. Only the
namespace tag and the content/padding distinction are observable in this
model; the raw bytes are out of scope. -/
structure Share where
  ns : NamespaceID
  kind : ShareKind
deriving DecidableEq

/-- A transaction: an opaque byte payload, or a wrapped (malleated)
transaction carrying a companion share index as well. -/
inductive Tx where
  | normal : List Nat → Tx
  | wrapped : List Nat → Nat → Tx
deriving DecidableEq

/-- Modelled from the spec: the wrapped-transaction accessor
unwrap(tx) -> (inner bytes, shareIndex, isWrapped). The concrete
coretypes.UnwrapMalleatedTx is not part of this repository slice. -/
def UnwrapMalleatedTx : Tx → Option (List Nat × Nat)
  | Tx.normal _ => none
  | Tx.wrapped p i => some (p, i)

/-- The raw bytes of a transaction as handed to the share writer. -/
def txBytes : Tx → List Nat
  | Tx.normal p => p
  | Tx.wrapped p _ => p

/-- An evidence item: an opaque payload; the valid flag models whether its
serialization by the evidence writer succeeds. -/
structure Evidence where
  payload : List Nat
  valid : Bool
deriving DecidableEq

/-- A message: a namespace identifier plus a byte payload. -/
structure Message where
  nsId : Nat
  data : List Nat
deriving DecidableEq

/-- The block data handed to Split: the declared square size, the
transactions, the evidence list and the message list. -/
structure Data where
  originalSquareSize : Nat
  txs : List Tx
  evidence : List Evidence
  messages : List Message
deriving DecidableEq

/-- The error taxonomy of the splitting code: the invalid-square-size
failure, the evidence serialization failure, the wrong-number-of-indexes
failure and the unexpected-first-message-index failure. -/
inductive SplitError where
  | invalidSquareSize : Nat → SplitError
  | evidenceEncodingError : SplitError
  | incorrectNumberOfIndexes : SplitError
  | unexpectedFirstMessageShareIndex : SplitError
deriving DecidableEq

/-- Modelled from the spec: the exact byte size of a share is treated as an
opaque fixed constant; any fixed positive capacity is faithful. -/
def shareCapacity : Nat := 256

/-- Ceiling division of a byte count by the share capacity. -/
def ceilDivCap (n : Nat) : Nat := (n + (shareCapacity - 1)) / shareCapacity

/-- Modelled from the spec: the Namespace Share Writer packs payloads
contiguously (with a unit-length delimiter per payload) into fixed-size
shares, splitting across share boundaries as needed. Only the share count
and the namespace tag are observable in this model. -/
def contiguousExport (ns : NamespaceID) (payloads : List (List Nat)) : List Share :=
  List.replicate (ceilDivCap (payloads.foldl (fun a p => a + (p.length + 1)) 0))
    ⟨ns, ShareKind.content⟩

/-- SplitTxs writes all transactions through the contiguous share writer
under the transaction namespace. -/
def SplitTxs (txs : List Tx) : List Share :=
  contiguousExport NamespaceID.txNs (txs.map txBytes)

/-- Helper for SplitEvidence: write the evidence items one by one, failing
on the first item whose serialization fails. -/
def splitEvidenceAux : List Evidence → List (List Nat) → Except SplitError (List (List Nat))
  | [], acc => Except.ok acc
  | e :: es, acc =>
    if e.valid then splitEvidenceAux es (acc ++ [e.payload])
    else Except.error SplitError.evidenceEncodingError

/-- SplitEvidence writes all evidence through the contiguous share writer
under the evidence namespace, propagating any per-item serialization
failure. -/
def SplitEvidence (evd : List Evidence) : Except SplitError (List Share) :=
  (splitEvidenceAux evd []).map (contiguousExport NamespaceID.evdNs)

/-- Modelled from the spec: a message consumes a share length computable
from its payload size (here, ceiling division by the share capacity). -/
def MsgSharesUsed (msgSize : Nat) : Nat := ceilDivCap msgSize

/-- Modelled from the spec: the Message Share Writer serializes one message
into its shares, under the namespace of that message. -/
def messageRawShares (m : Message) : List Share :=
  List.replicate (MsgSharesUsed m.data.length) ⟨NamespaceID.msgNs m.nsId, ShareKind.content⟩

/-- Modelled from the spec: count padding shares under the given namespace.
The count is an integer, as in the source; the writer loops from zero up to
the count, so a non-positive count yields no shares. -/
def namespacedPaddedShares (ns : NamespaceID) (count : Int) : List Share :=
  List.replicate count.toNat ⟨ns, ShareKind.padding⟩

/-- Modelled from the spec: tail padding shares under the reserved tail
namespace; a non-positive count yields no shares. -/
def TailPaddingShares (count : Int) : List Share :=
  List.replicate count.toNat ⟨NamespaceID.tailNs, ShareKind.padding⟩

/-- Fuel-driven base-two logarithm, written with structural recursion so
that it evaluates inside the kernel; with fuel at least n it agrees with
Nat.log2 n. -/
def log2Aux : Nat → Nat → Nat
  | 0, _ => 0
  | f + 1, n => if n ≥ 2 then log2Aux f (n / 2) + 1 else 0

/-- The floor of the base-two logarithm (0 when the input is 0). -/
def floorLog2 (n : Nat) : Nat := log2Aux n n

/-- The largest power of two that does not exceed n (1 when n = 0). -/
def largestPowerOfTwoLE (n : Nat) : Nat := 2 ^ floorLog2 n

/-- The smallest multiple of k that is at least c (for positive k). -/
def roundUpToMultiple (c k : Nat) : Nat := ((c + (k - 1)) / k) * k

/-- Modelled from the spec: the Alignment Resolver. nextAlignedStart must
return an offset that is at least the cursor and is a multiple of the
largest power of two not exceeding min(shareLength, gridWidth). The
validity flag is discarded by the caller and modelled as true. -/
def NextAlignedPowerOfTwo (cursor msgLen width : Nat) : Nat × Bool :=
  (roundUpToMultiple cursor (largestPowerOfTwoLE (min msgLen width)), true)

/-- Modelled from the spec: the test that the square size is a power of
two. -/
def powerOf2 (v : Nat) : Bool := v == 2 ^ floorLog2 v

/-- Helper for ExtractShareIndexes: iterate over the transactions carrying
the accumulated index list; an empty accumulated list at the end
corresponds to the nil slice of the source. -/
def extractShareIndexesAux : List Tx → List Nat → Option (List Nat)
  | [], acc => if acc = [] then none else some acc
  | t :: ts, acc =>
    match UnwrapMalleatedTx t with
    | some (_, idx) =>
      if idx = 0 then none else extractShareIndexesAux ts (acc ++ [idx])
    | none => extractShareIndexesAux ts acc

/-- ExtractShareIndexes iterates over the transactions and extracts the
share indexes from wrapped transactions. It returns none if the
transactions are from an old block that did not have share indexes in the
wrapped txs: any wrapped transaction whose share index is zero makes the
whole extraction return none. -/
def ExtractShareIndexes (txs : List Tx) : Option (List Nat) :=
  extractShareIndexesAux txs []

/-- Insert a value into an ascending-sorted list of naturals. -/
def insertAsc (x : Nat) : List Nat → List Nat
  | [] => [x]
  | y :: ys => if x ≤ y then x :: y :: ys else y :: insertAsc x ys

/-- Ascending insertion sort, modelling the in-place sort call in Split. -/
def sortNat : List Nat → List Nat
  | [] => []
  | x :: xs => insertAsc x (sortNat xs)

/-- The guard on the first message index: true when the index set is
non-nil and its first entry differs from the cursor. -/
def firstIndexMismatch (o : Option (List Nat)) (cursor : Nat) : Bool :=
  match o with
  | none => false
  | some idxs => idxs.headI != cursor

/-- The length guard of SplitMessages: true when the index set is non-nil
and its length differs from the number of messages. -/
def idxLenMismatch (indexes : Option (List Nat)) (n : Nat) : Bool :=
  match indexes with
  | none => false
  | some idxs => idxs.length != n

/-- The writer loop of SplitMessages: write each message and, when indexes
are present and a next message exists, follow message i with
indexes[i+1] - (writer count + cursor) namespaced padding shares. The
accumulator is the writer state: the list of shares written so far. -/
def splitMessagesGo (cursor : Nat) (indexes : Option (List Nat)) :
    Nat → List Share → List Message → List Share
  | _, acc, [] => acc
  | i, acc, msg :: rest =>
    let acc1 := acc ++ messageRawShares msg
    let acc2 :=
      match indexes with
      | some idxs =>
        if i + 1 < idxs.length then
          acc1 ++ namespacedPaddedShares (NamespaceID.msgNs msg.nsId)
            ((idxs.getD (i + 1) 0 : Int) - ((acc1.length : Int) + (cursor : Int)))
        else acc1
      | none => acc1
    splitMessagesGo cursor indexes (i + 1) acc2 rest

/-- SplitMessages: fails when the index set is present with a length
different from the number of messages, and otherwise writes every message
with its interleaved padding. -/
def SplitMessages (cursor : Nat) (indexes : Option (List Nat)) (msgs : List Message) :
    Except SplitError (List Share) :=
  if idxLenMismatch indexes msgs.length then
    Except.error SplitError.incorrectNumberOfIndexes
  else
    Except.ok (splitMessagesGo cursor indexes 0 [] msgs)

/-- The alignment padding region that Split inserts between the evidence
and the first message (lines 48-60 of the source): empty when there are no
messages, and otherwise alignedStart - cursor padding shares tagged with
the evidence namespace when evidence shares were written and with the
transaction namespace otherwise. -/
def alignmentPadding (msgs : List Message) (evdCount cursor squareSize : Nat) : List Share :=
  match msgs with
  | [] => []
  | m :: _ =>
    namespacedPaddedShares
      (if 0 < evdCount then NamespaceID.evdNs else NamespaceID.txNs)
      (((NextAlignedPowerOfTwo cursor (MsgSharesUsed m.data.length) squareSize).1 : Int)
        - (cursor : Int))

/-- Split builds the flat share sequence of a block: transaction shares,
evidence shares, alignment padding, message shares with their interleaved
padding, and tail padding up to the declared square size. -/
def Split (data : Data) : Except SplitError (List Share) :=
  if data.originalSquareSize = 0 ∨ powerOf2 data.originalSquareSize = false then
    Except.error (SplitError.invalidSquareSize data.originalSquareSize)
  else
    let wantShareCount := data.originalSquareSize * data.originalSquareSize
    let txShares := SplitTxs data.txs
    match SplitEvidence data.evidence with
    | Except.error e => Except.error e
    | Except.ok evdShares =>
      let currentShareCount := txShares.length + evdShares.length
      let msgIndexes := (ExtractShareIndexes data.txs).map sortNat
      if firstIndexMismatch msgIndexes currentShareCount then
        Except.error SplitError.unexpectedFirstMessageShareIndex
      else
        let padding := alignmentPadding data.messages evdShares.length currentShareCount
          data.originalSquareSize
        let currentShareCount2 := currentShareCount + padding.length
        match SplitMessages currentShareCount2 msgIndexes data.messages with
        | Except.error e => Except.error e
        | Except.ok msgShares =>
          let currentShareCount3 := currentShareCount2 + msgShares.length
          Except.ok (txShares ++ evdShares ++ padding ++ msgShares ++
            TailPaddingShares ((wantShareCount : Int) - (currentShareCount3 : Int)))

/-! ## Basic lemmas about the helpers -/

theorem log2Aux_eq (f : Nat) : ∀ n, n ≤ f → log2Aux f n = Nat.log2 n := by
  induction f with
  | zero =>
    intro n hn
    have h0 : n = 0 := Nat.le_zero.mp hn
    subst h0
    simp [log2Aux, Nat.log2]
  | succ f ih =>
    intro n hn
    by_cases h2 : n ≥ 2
    · have hrec : n / 2 ≤ f := by omega
      rw [log2Aux, if_pos h2, ih _ hrec]
      conv_rhs => rw [Nat.log2]
      rw [if_pos h2]
    · rw [log2Aux, if_neg h2]
      conv_rhs => rw [Nat.log2]
      rw [if_neg h2]

theorem floorLog2_eq (n : Nat) : floorLog2 n = Nat.log2 n :=
  log2Aux_eq n n (Nat.le_refl n)

theorem powerOf2_iff (v : Nat) : powerOf2 v = true ↔ ∃ k, v = 2 ^ k := by
  unfold powerOf2
  rw [beq_iff_eq, floorLog2_eq]
  constructor
  · intro h
    exact ⟨Nat.log2 v, h⟩
  · rintro ⟨k, rfl⟩
    rw [Nat.log2_eq_log_two, Nat.log_pow (by norm_num)]

theorem squareSizeGuard_iff (v : Nat) :
    (v = 0 ∨ powerOf2 v = false) ↔ ¬∃ k, v = 2 ^ k := by
  constructor
  · rintro (rfl | h) ⟨k, hk⟩
    · have hp : 0 < 2 ^ k := Nat.pos_pow_of_pos k (by norm_num)
      omega
    · rw [(powerOf2_iff v).mpr ⟨k, hk⟩] at h
      cases h
  · intro h
    right
    cases hp : powerOf2 v with
    | false => rfl
    | true => exact absurd ((powerOf2_iff v).mp hp) h

theorem splitEvidenceAux_error (evd : List Evidence) :
    ∀ acc e, splitEvidenceAux evd acc = Except.error e →
      e = SplitError.evidenceEncodingError := by
  induction evd with
  | nil => intro acc e h; cases h
  | cons x xs ih =>
    intro acc e h
    unfold splitEvidenceAux at h
    by_cases hv : x.valid
    · rw [if_pos hv] at h
      exact ih _ _ h
    · rw [if_neg hv] at h
      cases h
      rfl

theorem splitEvidence_error (evd : List Evidence) (e : SplitError)
    (h : SplitEvidence evd = Except.error e) : e = SplitError.evidenceEncodingError := by
  unfold SplitEvidence at h
  cases h2 : splitEvidenceAux evd [] with
  | ok ps =>
    rw [h2] at h
    have h5 : (Except.ok (contiguousExport NamespaceID.evdNs ps) :
        Except SplitError (List Share)) = Except.error e := h
    cases h5
  | error e2 =>
    rw [h2] at h
    have h5 : (Except.error e2 : Except SplitError (List Share)) = Except.error e := h
    injection h5 with h4
    exact h4 ▸ splitEvidenceAux_error evd [] e2 h2

theorem splitEvidence_ok_shape (evd : List Evidence) (evdShares : List Share)
    (h : SplitEvidence evd = Except.ok evdShares) :
    ∀ s ∈ evdShares, s = ⟨NamespaceID.evdNs, ShareKind.content⟩ := by
  unfold SplitEvidence at h
  cases h2 : splitEvidenceAux evd [] with
  | ok ps =>
    rw [h2] at h
    have h5 : (Except.ok (contiguousExport NamespaceID.evdNs ps) :
        Except SplitError (List Share)) = Except.ok evdShares := h
    injection h5 with h4
    intro s hs
    rw [← h4] at hs
    exact List.eq_of_mem_replicate hs
  | error e2 =>
    rw [h2] at h
    have h5 : (Except.error e2 : Except SplitError (List Share)) = Except.ok evdShares := h
    cases h5

theorem splitTxs_shape (txs : List Tx) :
    ∀ s ∈ SplitTxs txs, s = ⟨NamespaceID.txNs, ShareKind.content⟩ := by
  intro s hs
  exact List.eq_of_mem_replicate hs

theorem alignmentPadding_shape (msgs : List Message) (evdCount cursor squareSize : Nat) :
    ∀ s ∈ alignmentPadding msgs evdCount cursor squareSize,
      s.kind = ShareKind.padding ∧
        (s.ns = NamespaceID.txNs ∨ s.ns = NamespaceID.evdNs) := by
  intro s hs
  cases msgs with
  | nil => cases hs
  | cons m rest =>
    unfold alignmentPadding namespacedPaddedShares at hs
    have h1 := List.eq_of_mem_replicate hs
    subst h1
    by_cases he : 0 < evdCount
    · rw [if_pos he]
      exact ⟨rfl, Or.inr rfl⟩
    · rw [if_neg he]
      exact ⟨rfl, Or.inl rfl⟩

theorem tailPadding_shape (count : Int) :
    ∀ s ∈ TailPaddingShares count, s = ⟨NamespaceID.tailNs, ShareKind.padding⟩ := by
  intro s hs
  exact List.eq_of_mem_replicate hs

theorem splitMessages_error_eq (cursor : Nat) (indexes : Option (List Nat))
    (msgs : List Message) (e : SplitError)
    (h : SplitMessages cursor indexes msgs = Except.error e) :
    e = SplitError.incorrectNumberOfIndexes := by
  unfold SplitMessages at h
  by_cases hc : idxLenMismatch indexes msgs.length
  · rw [if_pos hc] at h
    cases h
    rfl
  · rw [if_neg hc] at h
    cases h

theorem splitMessagesGo_forall (P : Share → Prop)
    (cursor : Nat) (indexes : Option (List Nat))
    (hmsg : ∀ n, P ⟨NamespaceID.msgNs n, ShareKind.content⟩)
    (hpad : ∀ n, P ⟨NamespaceID.msgNs n, ShareKind.padding⟩) :
    ∀ (msgs : List Message) (i : Nat) (acc : List Share), (∀ s ∈ acc, P s) →
      ∀ s ∈ splitMessagesGo cursor indexes i acc msgs, P s := by
  intro msgs
  induction msgs with
  | nil =>
    intro i acc hacc s hs
    exact hacc s hs
  | cons m rest ih =>
    intro i acc hacc s hs
    unfold splitMessagesGo at hs
    refine ih (i + 1) _ ?_ s hs
    intro t ht
    have hacc1 : ∀ t2 ∈ acc ++ messageRawShares m, P t2 := by
      intro t2 ht2
      rcases List.mem_append.mp ht2 with h2 | h2
      · exact hacc t2 h2
      · have := List.eq_of_mem_replicate h2
        subst this
        exact hmsg m.nsId
    cases indexes with
    | none => exact hacc1 t ht
    | some idxs =>
      simp only at ht
      by_cases hlt : i + 1 < idxs.length
      · rw [if_pos hlt] at ht
        rcases List.mem_append.mp ht with h2 | h2
        · exact hacc1 t h2
        · have := List.eq_of_mem_replicate h2
          subst this
          exact hpad m.nsId
      · rw [if_neg hlt] at ht
        exact hacc1 t ht

theorem splitMessagesGo_none_content (cursor : Nat) :
    ∀ (msgs : List Message) (i : Nat) (acc : List Share),
      (∀ s ∈ acc, s.kind = ShareKind.content) →
      ∀ s ∈ splitMessagesGo cursor none i acc msgs, s.kind = ShareKind.content := by
  intro msgs
  induction msgs with
  | nil =>
    intro i acc hacc s hs
    exact hacc s hs
  | cons m rest ih =>
    intro i acc hacc s hs
    unfold splitMessagesGo at hs
    refine ih (i + 1) _ ?_ s hs
    intro t ht
    rcases List.mem_append.mp ht with h2 | h2
    · exact hacc t h2
    · have := List.eq_of_mem_replicate h2
      subst this
      rfl

theorem splitMessages_ok_shape (cursor : Nat) (indexes : Option (List Nat))
    (msgs : List Message) (out : List Share)
    (h : SplitMessages cursor indexes msgs = Except.ok out) :
    ∀ s ∈ out, ∃ n, s.ns = NamespaceID.msgNs n := by
  unfold SplitMessages at h
  by_cases hc : idxLenMismatch indexes msgs.length
  · rw [if_pos hc] at h
    cases h
  · rw [if_neg hc] at h
    cases h
    refine splitMessagesGo_forall (fun s => ∃ n, s.ns = NamespaceID.msgNs n) cursor indexes
      ?_ ?_ msgs 0 [] ?_
    · intro n; exact ⟨n, rfl⟩
    · intro n; exact ⟨n, rfl⟩
    · intro s hs; cases hs

/-! ## Characterization of a successful Split -/

theorem split_ok_eq (d : Data) (evdShares msgShares : List Share)
    (hsize : powerOf2 d.originalSquareSize = true)
    (hevd : SplitEvidence d.evidence = Except.ok evdShares)
    (hidx : firstIndexMismatch ((ExtractShareIndexes d.txs).map sortNat)
      ((SplitTxs d.txs).length + evdShares.length) = false)
    (hmsg : SplitMessages
      ((SplitTxs d.txs).length + evdShares.length +
        (alignmentPadding d.messages evdShares.length
          ((SplitTxs d.txs).length + evdShares.length) d.originalSquareSize).length)
      ((ExtractShareIndexes d.txs).map sortNat) d.messages = Except.ok msgShares) :
    Split d = Except.ok (SplitTxs d.txs ++ evdShares ++
      alignmentPadding d.messages evdShares.length
        ((SplitTxs d.txs).length + evdShares.length) d.originalSquareSize ++ msgShares ++
      TailPaddingShares ((d.originalSquareSize * d.originalSquareSize : Int) -
        (((SplitTxs d.txs).length + evdShares.length +
          (alignmentPadding d.messages evdShares.length
            ((SplitTxs d.txs).length + evdShares.length) d.originalSquareSize).length +
          msgShares.length : Nat) : Int))) := by
  have h0 : ¬(d.originalSquareSize = 0 ∨ powerOf2 d.originalSquareSize = false) := by
    rintro (h | h)
    · rcases (powerOf2_iff _).mp hsize with ⟨k, hk⟩
      have hp : 0 < 2 ^ k := Nat.pos_pow_of_pos k (by norm_num)
      omega
    · rw [hsize] at h
      cases h
  simp only [Split]
  rw [if_neg h0]
  split
  next e heq =>
    rw [hevd] at heq
    cases heq
  next a heq =>
    rw [hevd] at heq
    injection heq with h4
    subst h4
    split
    next hc => rw [hidx] at hc; cases hc
    next hc =>
      split
      next e2 heq2 =>
        rw [hmsg] at heq2
        cases heq2
      next b heq2 =>
        rw [hmsg] at heq2
        injection heq2 with h5
        subst h5
        rfl

theorem split_ok_inv (d : Data) (l : List Share) (h : Split d = Except.ok l) :
    ∃ evdShares msgShares,
      SplitEvidence d.evidence = Except.ok evdShares ∧
      firstIndexMismatch ((ExtractShareIndexes d.txs).map sortNat)
        ((SplitTxs d.txs).length + evdShares.length) = false ∧
      SplitMessages
        ((SplitTxs d.txs).length + evdShares.length +
          (alignmentPadding d.messages evdShares.length
            ((SplitTxs d.txs).length + evdShares.length) d.originalSquareSize).length)
        ((ExtractShareIndexes d.txs).map sortNat) d.messages = Except.ok msgShares ∧
      l = SplitTxs d.txs ++ evdShares ++
        alignmentPadding d.messages evdShares.length
          ((SplitTxs d.txs).length + evdShares.length) d.originalSquareSize ++ msgShares ++
        TailPaddingShares ((d.originalSquareSize * d.originalSquareSize : Int) -
          (((SplitTxs d.txs).length + evdShares.length +
            (alignmentPadding d.messages evdShares.length
              ((SplitTxs d.txs).length + evdShares.length) d.originalSquareSize).length +
            msgShares.length : Nat) : Int)) := by
  simp only [Split] at h
  split at h
  · cases h
  · split at h
    next e heq => cases h
    next a heq =>
      split at h
      next hc => cases h
      next hc =>
        split at h
        next e2 heq2 => cases h
        next b heq2 =>
          injection h with h5
          rw [Bool.not_eq_true] at hc
          exact ⟨a, b, heq, hc, heq2, h5.symm⟩

/-! ## Claims C1 and C2: total size and (missing) overflow handling -/

/-- Claim C1 (amended): whenever Split returns successfully, the length of
the returned share sequence equals the maximum of squareSize * squareSize
and the number of non-tail shares; it is exactly squareSize * squareSize
whenever the content fits within the square, but strictly larger when the
content overflows, because the code never checks for overflow. -/
theorem split_ok_length (d : Data) (l : List Share) (h : Split d = Except.ok l) :
    l.length = max (d.originalSquareSize * d.originalSquareSize)
      (l.countP (fun s => !(s.ns == NamespaceID.tailNs))) := by
  obtain ⟨evdS, msgS, hevd, hidx, hmsg, hl⟩ := split_ok_inv d l h
  have htx := splitTxs_shape d.txs
  have hevds := splitEvidence_ok_shape d.evidence evdS hevd
  have hpads := alignmentPadding_shape d.messages evdS.length
    ((SplitTxs d.txs).length + evdS.length) d.originalSquareSize
  have hmsgs := splitMessages_ok_shape _ _ _ _ hmsg
  subst hl
  rw [List.countP_append, List.countP_append, List.countP_append, List.countP_append]
  rw [List.length_append, List.length_append, List.length_append, List.length_append]
  have p1 : (SplitTxs d.txs).countP (fun s => !(s.ns == NamespaceID.tailNs)) =
      (SplitTxs d.txs).length := by
    rw [List.countP_eq_length]
    intro a ha
    rw [htx a ha]
    rfl
  have p2 : evdS.countP (fun s => !(s.ns == NamespaceID.tailNs)) = evdS.length := by
    rw [List.countP_eq_length]
    intro a ha
    rw [hevds a ha]
    rfl
  have p3 : (alignmentPadding d.messages evdS.length
      ((SplitTxs d.txs).length + evdS.length) d.originalSquareSize).countP
      (fun s => !(s.ns == NamespaceID.tailNs)) =
      (alignmentPadding d.messages evdS.length
      ((SplitTxs d.txs).length + evdS.length) d.originalSquareSize).length := by
    rw [List.countP_eq_length]
    intro a ha
    rcases hpads a ha with ⟨hk, hns | hns⟩ <;> simp [hns]
  have p4 : msgS.countP (fun s => !(s.ns == NamespaceID.tailNs)) = msgS.length := by
    rw [List.countP_eq_length]
    intro a ha
    obtain ⟨n, hn⟩ := hmsgs a ha
    simp [hn]
  have p5 : ∀ t : Int, (TailPaddingShares t).countP
      (fun s => !(s.ns == NamespaceID.tailNs)) = 0 := by
    intro t
    unfold TailPaddingShares
    rw [List.countP_replicate]
    simp
  have p6 : ∀ t : Int, (TailPaddingShares t).length = t.toNat := by
    intro t
    unfold TailPaddingShares
    rw [List.length_replicate]
  rw [p1, p2, p3, p4, p5, p6]
  omega

/-- Claim C2 (amended): the tail padding region of a successful Split has
max(0, squareSize * squareSize - content) shares: the code clamps a
negative tail count at zero instead of failing, since no overflow error
exists in the source. -/
theorem split_tail_clamped (d : Data) (l : List Share) (h : Split d = Except.ok l) :
    l.countP (fun s => s.ns == NamespaceID.tailNs) =
      ((d.originalSquareSize * d.originalSquareSize : Int) -
        (l.countP (fun s => !(s.ns == NamespaceID.tailNs)) : Int)).toNat := by
  obtain ⟨evdS, msgS, hevd, hidx, hmsg, hl⟩ := split_ok_inv d l h
  have htx := splitTxs_shape d.txs
  have hevds := splitEvidence_ok_shape d.evidence evdS hevd
  have hpads := alignmentPadding_shape d.messages evdS.length
    ((SplitTxs d.txs).length + evdS.length) d.originalSquareSize
  have hmsgs := splitMessages_ok_shape _ _ _ _ hmsg
  subst hl
  rw [List.countP_append, List.countP_append, List.countP_append, List.countP_append]
  rw [List.countP_append, List.countP_append, List.countP_append, List.countP_append]
  have p1 : (SplitTxs d.txs).countP (fun s => !(s.ns == NamespaceID.tailNs)) =
      (SplitTxs d.txs).length := by
    rw [List.countP_eq_length]
    intro a ha
    rw [htx a ha]
    rfl
  have p2 : evdS.countP (fun s => !(s.ns == NamespaceID.tailNs)) = evdS.length := by
    rw [List.countP_eq_length]
    intro a ha
    rw [hevds a ha]
    rfl
  have p3 : (alignmentPadding d.messages evdS.length
      ((SplitTxs d.txs).length + evdS.length) d.originalSquareSize).countP
      (fun s => !(s.ns == NamespaceID.tailNs)) =
      (alignmentPadding d.messages evdS.length
      ((SplitTxs d.txs).length + evdS.length) d.originalSquareSize).length := by
    rw [List.countP_eq_length]
    intro a ha
    rcases hpads a ha with ⟨hk, hns | hns⟩ <;> simp [hns]
  have p4 : msgS.countP (fun s => !(s.ns == NamespaceID.tailNs)) = msgS.length := by
    rw [List.countP_eq_length]
    intro a ha
    obtain ⟨n, hn⟩ := hmsgs a ha
    simp [hn]
  have p5 : ∀ t : Int, (TailPaddingShares t).countP
      (fun s => !(s.ns == NamespaceID.tailNs)) = 0 := by
    intro t
    unfold TailPaddingShares
    rw [List.countP_replicate]
    simp
  have q1 : (SplitTxs d.txs).countP (fun s => s.ns == NamespaceID.tailNs) = 0 := by
    rw [List.countP_eq_zero]
    intro a ha
    rw [htx a ha]
    simp
  have q2 : evdS.countP (fun s => s.ns == NamespaceID.tailNs) = 0 := by
    rw [List.countP_eq_zero]
    intro a ha
    rw [hevds a ha]
    simp
  have q3 : (alignmentPadding d.messages evdS.length
      ((SplitTxs d.txs).length + evdS.length) d.originalSquareSize).countP
      (fun s => s.ns == NamespaceID.tailNs) = 0 := by
    rw [List.countP_eq_zero]
    intro a ha
    rcases hpads a ha with ⟨hk, hns | hns⟩ <;> simp [hns]
  have q4 : msgS.countP (fun s => s.ns == NamespaceID.tailNs) = 0 := by
    rw [List.countP_eq_zero]
    intro a ha
    obtain ⟨n, hn⟩ := hmsgs a ha
    simp [hn]
  have q5 : ∀ t : Int, (TailPaddingShares t).countP
      (fun s => s.ns == NamespaceID.tailNs) = t.toNat := by
    intro t
    unfold TailPaddingShares
    rw [List.countP_replicate]
    simp
  rw [p1, p2, p3, p4, p5, q1, q2, q3, q4, q5]
  omega

/-- A block whose content overflows its declared 1-by-1 square: one
transaction plus one message need two shares while the square holds one. -/
def dOversizeA : Data := ⟨1, [Tx.normal [5]], [], [⟨1, [2]⟩]⟩

/-- A second overflowing block for the overflow-error claim. -/
def dOversizeB : Data := ⟨1, [Tx.normal []], [], [⟨0, [1]⟩]⟩

/-- An input whose content fits: an empty block in a 1-by-1 square. -/
def dFit : Data := ⟨1, [], [], []⟩

/-- Counterexample to claim C1 as stated: the square size 1 is a power of
two, yet Split succeeds with 2 shares, more than squareSize * squareSize =
1, because the content overflows and the code does not fail on overflow. -/
theorem split_overflow_length_counterexample :
    (∃ k, dOversizeA.originalSquareSize = 2 ^ k) ∧
    Split dOversizeA = Except.ok
      [⟨NamespaceID.txNs, ShareKind.content⟩, ⟨NamespaceID.msgNs 1, ShareKind.content⟩] ∧
    ([⟨NamespaceID.txNs, ShareKind.content⟩,
      ⟨NamespaceID.msgNs 1, ShareKind.content⟩] : List Share).length ≠
      dOversizeA.originalSquareSize * dOversizeA.originalSquareSize :=
  ⟨⟨0, rfl⟩, rfl, by decide⟩

/-- Witness for the amended claim C1 at a concrete fitting input. -/
theorem split_ok_length_witness :
    Split dFit = Except.ok [⟨NamespaceID.tailNs, ShareKind.padding⟩] ∧
    ([⟨NamespaceID.tailNs, ShareKind.padding⟩] : List Share).length =
      max (dFit.originalSquareSize * dFit.originalSquareSize)
        (([⟨NamespaceID.tailNs, ShareKind.padding⟩] : List Share).countP
          (fun s => !(s.ns == NamespaceID.tailNs))) :=
  ⟨rfl, split_ok_length dFit [⟨NamespaceID.tailNs, ShareKind.padding⟩] rfl⟩

/-- Counterexample to claim C2 as stated: here the content takes 2 shares
while the square holds 1, so the tail count want - cursor is negative, yet
Split returns a share sequence successfully instead of failing with an
overflow error (the source has no such error at all). -/
theorem split_overflow_ok_counterexample :
    ((dOversizeB.originalSquareSize * dOversizeB.originalSquareSize : Int) - 2 < 0) ∧
    Split dOversizeB = Except.ok
      [⟨NamespaceID.txNs, ShareKind.content⟩, ⟨NamespaceID.msgNs 0, ShareKind.content⟩] ∧
    ([⟨NamespaceID.txNs, ShareKind.content⟩,
      ⟨NamespaceID.msgNs 0, ShareKind.content⟩] : List Share).length = 2 :=
  ⟨by decide, rfl, rfl⟩

/-- Witness for the amended claim C2 at a concrete fitting input. -/
theorem split_tail_clamped_witness :
    Split dFit = Except.ok [⟨NamespaceID.tailNs, ShareKind.padding⟩] ∧
    ([⟨NamespaceID.tailNs, ShareKind.padding⟩] : List Share).countP
        (fun s => s.ns == NamespaceID.tailNs) =
      ((dFit.originalSquareSize * dFit.originalSquareSize : Int) -
        (([⟨NamespaceID.tailNs, ShareKind.padding⟩] : List Share).countP
          (fun s => !(s.ns == NamespaceID.tailNs)) : Int)).toNat :=
  ⟨rfl, split_tail_clamped dFit [⟨NamespaceID.tailNs, ShareKind.padding⟩] rfl⟩

/-! ## Claims C3 and C9: the all-or-nothing legacy fallback of the index
extractor -/

theorem extractAux_zero (p : List Nat) :
    ∀ (txs : List Tx) (acc : List Nat), Tx.wrapped p 0 ∈ txs →
      extractShareIndexesAux txs acc = none := by
  intro txs
  induction txs with
  | nil => intro acc h; cases h
  | cons t ts ih =>
    intro acc h
    rcases List.mem_cons.mp h with h1 | h1
    · rw [← h1]
      rfl
    · cases t with
      | normal q => exact ih acc h1
      | wrapped q i =>
        by_cases hi : i = 0
        · subst hi
          rfl
        · show (if i = 0 then none
            else extractShareIndexesAux ts (acc ++ [i])) = none
          rw [if_neg hi]
          exact ih _ h1

/-- Claim C3: if any wrapped transaction in the list carries share index 0,
then ExtractShareIndexes returns none (the absent index set) for the whole
block, even when other wrapped transactions carry non-zero indices. -/
theorem extractShareIndexes_zero_index (txs : List Tx) (p : List Nat)
    (h : Tx.wrapped p 0 ∈ txs) : ExtractShareIndexes txs = none :=
  extractAux_zero p txs [] h

/-- Witness for claim C3: a list mixing non-zero wrapped transactions with a
zero-index wrapped transaction still extracts to none. -/
theorem extractShareIndexes_zero_index_witness :
    Tx.wrapped [] 0 ∈ [Tx.wrapped [1] 4, Tx.wrapped [] 0, Tx.wrapped [2] 9] ∧
    ExtractShareIndexes [Tx.wrapped [1] 4, Tx.wrapped [] 0, Tx.wrapped [2] 9] = none :=
  ⟨by decide, extractShareIndexes_zero_index
    [Tx.wrapped [1] 4, Tx.wrapped [] 0, Tx.wrapped [2] 9] [] (by decide)⟩

theorem extractAux_no_wrapped :
    ∀ txs : List Tx, (∀ tx ∈ txs, UnwrapMalleatedTx tx = none) →
      extractShareIndexesAux txs [] = none := by
  intro txs
  induction txs with
  | nil => intro h; rfl
  | cons t ts ih =>
    intro h
    cases t with
    | normal q => exact ih (fun tx ht => h tx (List.mem_cons_of_mem _ ht))
    | wrapped q i =>
      have h2 := h (Tx.wrapped q i) (List.mem_cons_self _ _)
      exact Option.noConfusion h2

/-- Claim C9: for every transaction list containing no wrapped (malleated)
transactions, including the empty list, ExtractShareIndexes returns none,
indistinguishable from a legacy block without the indexing feature. -/
theorem extractShareIndexes_no_wrapped (txs : List Tx)
    (h : ∀ tx ∈ txs, UnwrapMalleatedTx tx = none) : ExtractShareIndexes txs = none :=
  extractAux_no_wrapped txs h

/-- Witness for claim C9 on a concrete list of plain transactions. -/
theorem extractShareIndexes_no_wrapped_witness :
    (∀ tx ∈ [Tx.normal [3], Tx.normal []], UnwrapMalleatedTx tx = none) ∧
    ExtractShareIndexes [Tx.normal [3], Tx.normal []] = none :=
  ⟨by decide, extractShareIndexes_no_wrapped [Tx.normal [3], Tx.normal []] (by decide)⟩

/-! ## Claim C4: the first-message-index cross-check -/

theorem size_guard_false (v : Nat) (h : powerOf2 v = true) :
    ¬(v = 0 ∨ powerOf2 v = false) := by
  rintro (h1 | h1)
  · rcases (powerOf2_iff _).mp h with ⟨k, hk⟩
    have hp : 0 < 2 ^ k := Nat.pos_pow_of_pos k (by norm_num)
    omega
  · rw [h] at h1
    cases h1

/-- Claim C4: when the square size is valid, evidence splitting succeeds,
and the extracted index set is non-nil with its smallest (first after
ascending sort) entry different from the cursor reached after the
transaction and evidence shares, Split fails with the
unexpected-first-message-index error. -/
theorem split_unexpected_first_index (d : Data) (evdShares : List Share) (idxs : List Nat)
    (hsize : powerOf2 d.originalSquareSize = true)
    (hevd : SplitEvidence d.evidence = Except.ok evdShares)
    (hext : ExtractShareIndexes d.txs = some idxs)
    (hne : (sortNat idxs).headI ≠ (SplitTxs d.txs).length + evdShares.length) :
    Split d = Except.error SplitError.unexpectedFirstMessageShareIndex := by
  simp only [Split]
  rw [if_neg (size_guard_false _ hsize)]
  split
  next e heq =>
    rw [hevd] at heq
    cases heq
  next a heq =>
    rw [hevd] at heq
    injection heq with h4
    subst h4
    have hb : firstIndexMismatch ((ExtractShareIndexes d.txs).map sortNat)
        ((SplitTxs d.txs).length + evdShares.length) = true := by
      rw [hext]
      unfold firstIndexMismatch
      simp only [Option.map_some']
      exact bne_iff_ne.mpr hne
    rw [if_pos hb]

/-- A block for the claim C4 witness: its only transaction is wrapped with
declared index 5, while the cursor after transactions and evidence is 1. -/
def dBadIndex : Data := ⟨2, [Tx.wrapped [] 5], [], []⟩

/-- Witness for claim C4 at a concrete block. -/
theorem split_unexpected_first_index_witness :
    powerOf2 dBadIndex.originalSquareSize = true ∧
    SplitEvidence dBadIndex.evidence = Except.ok [] ∧
    ExtractShareIndexes dBadIndex.txs = some [5] ∧
    (sortNat [5]).headI ≠ (SplitTxs dBadIndex.txs).length + ([] : List Share).length ∧
    Split dBadIndex = Except.error SplitError.unexpectedFirstMessageShareIndex :=
  ⟨rfl, rfl, rfl, by decide,
   split_unexpected_first_index dBadIndex [] [5] rfl rfl rfl (by decide)⟩

/-! ## Claim C6: the alignment padding region -/

/-- Claim C6: whenever Split reaches the padding stage (valid size, evidence
ok, first-index check passed, message writing ok), the share sequence it
returns carries, between the evidence shares and the message shares,
exactly the alignmentPadding region: alignedStart - cursor padding shares
(alignedStart being the alignment resolver result for the first message
share length, the cursor and the square size), tagged with the evidence
namespace when evidence shares were written and the transaction namespace
otherwise, and no padding at all when the message list is empty. -/
theorem split_alignment_padding_region (d : Data) (evdShares msgShares : List Share)
    (hsize : powerOf2 d.originalSquareSize = true)
    (hevd : SplitEvidence d.evidence = Except.ok evdShares)
    (hidx : firstIndexMismatch ((ExtractShareIndexes d.txs).map sortNat)
      ((SplitTxs d.txs).length + evdShares.length) = false)
    (hmsg : SplitMessages
      ((SplitTxs d.txs).length + evdShares.length +
        (alignmentPadding d.messages evdShares.length
          ((SplitTxs d.txs).length + evdShares.length) d.originalSquareSize).length)
      ((ExtractShareIndexes d.txs).map sortNat) d.messages = Except.ok msgShares) :
    Split d = Except.ok (SplitTxs d.txs ++ evdShares ++
      alignmentPadding d.messages evdShares.length
        ((SplitTxs d.txs).length + evdShares.length) d.originalSquareSize ++ msgShares ++
      TailPaddingShares ((d.originalSquareSize * d.originalSquareSize : Int) -
        (((SplitTxs d.txs).length + evdShares.length +
          (alignmentPadding d.messages evdShares.length
            ((SplitTxs d.txs).length + evdShares.length) d.originalSquareSize).length +
          msgShares.length : Nat) : Int))) :=
  split_ok_eq d evdShares msgShares hsize hevd hidx hmsg

/-- A block for the claim C6 witness: one evidence share and one message
needing two shares in a 2-by-2 square, forcing one alignment padding share
tagged with the evidence namespace. -/
def dAligned : Data := ⟨2, [], [⟨[], true⟩], [⟨7, List.replicate 300 0⟩]⟩

/-- Witness for claim C6: at the concrete block the padding region is one
share tagged with the evidence namespace, between the evidence share and
the two message shares. -/
theorem split_alignment_padding_region_witness :
    powerOf2 dAligned.originalSquareSize = true ∧
    SplitEvidence dAligned.evidence = Except.ok [⟨NamespaceID.evdNs, ShareKind.content⟩] ∧
    Split dAligned = Except.ok
      [⟨NamespaceID.evdNs, ShareKind.content⟩, ⟨NamespaceID.evdNs, ShareKind.padding⟩,
       ⟨NamespaceID.msgNs 7, ShareKind.content⟩, ⟨NamespaceID.msgNs 7, ShareKind.content⟩] :=
  ⟨rfl, rfl,
   (split_alignment_padding_region dAligned [⟨NamespaceID.evdNs, ShareKind.content⟩]
     [⟨NamespaceID.msgNs 7, ShareKind.content⟩, ⟨NamespaceID.msgNs 7, ShareKind.content⟩]
     rfl rfl rfl rfl).trans rfl⟩

/-! ## Claims C5, C7 and C10: SplitMessages -/

/-- Claim C5: SplitMessages returns the wrong-number-of-indexes error
exactly when the index set is non-nil and its length differs from the
number of messages; in particular it is never returned for a nil index
set, and when it is returned the call produces the error alone, with no
share output. -/
theorem splitMessages_mismatch_iff (cursor : Nat) (indexes : Option (List Nat))
    (msgs : List Message) :
    SplitMessages cursor indexes msgs = Except.error SplitError.incorrectNumberOfIndexes ↔
      ∃ idxs, indexes = some idxs ∧ idxs.length ≠ msgs.length := by
  unfold SplitMessages
  cases indexes with
  | none => simp [idxLenMismatch]
  | some idxs =>
    by_cases hl : idxs.length = msgs.length
    · simp [idxLenMismatch, hl]
    · simp [idxLenMismatch, hl]

/-- Claim C10: with a nil index set SplitMessages always succeeds, and its
output contains no padding shares at all (every share is a content share
of some message). -/
theorem splitMessages_none_ok (cursor : Nat) (msgs : List Message) :
    ∃ out, SplitMessages cursor none msgs = Except.ok out ∧
      ∀ s ∈ out, s.kind = ShareKind.content := by
  refine ⟨splitMessagesGo cursor none 0 [] msgs, rfl, ?_⟩
  exact splitMessagesGo_none_content cursor msgs 0 []
    (fun s hs => absurd hs (List.not_mem_nil s))

/-- The one-share message used in the claim C7 counterexample and witness. -/
def msgOne : Message := ⟨0, [1]⟩

/-- Counterexample to claim C7 as stated: with the (sorted, length-matching)
index set [0, 0], the padding count computed after the first message is
0 - (1 + 0) = -1, a negative value, yet SplitMessages succeeds instead of
failing with a validation error: the writer simply emits no shares for a
non-positive count. -/
theorem splitMessages_negative_pad_counterexample :
    ((([0, 0] : List Nat).getD 1 0 : Int) -
      (((messageRawShares msgOne).length : Int) + (0 : Int)) < 0) ∧
    SplitMessages 0 (some [0, 0]) [msgOne, msgOne] = Except.ok
      [⟨NamespaceID.msgNs 0, ShareKind.content⟩, ⟨NamespaceID.msgNs 0, ShareKind.content⟩] :=
  ⟨by decide, rfl⟩

/-- Claim C7 (amended): whenever the index set length matches the message
count, SplitMessages returns successfully no matter what index values are
supplied; a negative inter-message padding count is not rejected, the
writer just emits no padding shares for it. -/
theorem splitMessages_matching_count_ok (cursor : Nat) (idxs : List Nat)
    (msgs : List Message) (h : idxs.length = msgs.length) :
    ∃ out, SplitMessages cursor (some idxs) msgs = Except.ok out := by
  refine ⟨splitMessagesGo cursor (some idxs) 0 [] msgs, ?_⟩
  unfold SplitMessages
  have hb : idxLenMismatch (some idxs) msgs.length = false := by
    unfold idxLenMismatch
    simp [h]
  rw [hb]
  rfl

/-- Witness for the amended claim C7 at a concrete input whose index set
would demand a negative padding count. -/
theorem splitMessages_matching_count_ok_witness :
    ([9, 0] : List Nat).length = ([msgOne, msgOne] : List Message).length ∧
    ∃ out, SplitMessages 3 (some [9, 0]) [msgOne, msgOne] = Except.ok out :=
  ⟨rfl, splitMessages_matching_count_ok 3 [9, 0] [msgOne, msgOne] rfl⟩

/-! ## Claim C8: the square size validation -/

/-- Claim C8: Split fails with the invalid-square-size error exactly when
the declared square size is zero or not a power of two (equivalently, not
of the form 2 ^ k); for such inputs only the error is returned, never a
share sequence. -/
theorem split_invalid_square_size_iff (d : Data) :
    (∃ n, Split d = Except.error (SplitError.invalidSquareSize n)) ↔
      ¬∃ k, d.originalSquareSize = 2 ^ k := by
  constructor
  · rintro ⟨n, hn⟩ hex
    have h0 : ¬(d.originalSquareSize = 0 ∨ powerOf2 d.originalSquareSize = false) := by
      rw [squareSizeGuard_iff]
      exact fun hh => hh hex
    simp only [Split] at hn
    rw [if_neg h0] at hn
    split at hn
    next e heq =>
      injection hn with h5
      have h6 := splitEvidence_error _ _ heq
      rw [h6] at h5
      cases h5
    next a heq =>
      split at hn
      next hc =>
        injection hn with h5
        cases h5
      next hc =>
        split at hn
        next e2 heq2 =>
          injection hn with h5
          have h6 := splitMessages_error_eq _ _ _ _ heq2
          rw [h6] at h5
          cases h5
        next b heq2 => cases hn
  · intro hex
    refine ⟨d.originalSquareSize, ?_⟩
    have h0 : d.originalSquareSize = 0 ∨ powerOf2 d.originalSquareSize = false :=
      (squareSizeGuard_iff _).mpr hex
    simp only [Split]
    rw [if_pos h0]

end CelestiaShares
